import Mathlib

/-!
Verification of the message sanitizer and model-fallback dispatcher of the
aiblog repository (src/bedrock_helpers.py, src/fix_litellm_bedrock_error.py,
and the recursive variant generated by src/aws_bedrock_checker.py).

Embedding conventions:
* A Python runtime value that may appear in a message list is modelled by
  `PyVal`: a dict with (at most) the keys "role" and "content" (`Msg`), a
  string, or any other non-iterable value carried by its `str()` form.
  A dict key that is absent is `none`; a present-but-empty string is
  `some ""` (both are falsy in Python, and the code treats them alike).
* Code that can raise a Python exception is modelled in `Except String`,
  the error string naming the exception.
* The external `litellm.completion` call is an oracle parameter
  `compl : String → List PyVal → Except String String` mapping the model
  name and the message list to either the response text
  (`response.choices[0].message.content`) or the raised exception's text.
  The fixed keyword parameters (temperature, max_tokens, timeout) are
  constants folded into the oracle.
* The dispatchers additionally return the ordered list of model names on
  which the completion oracle was actually invoked, so that call-count
  properties can be stated; the source returns only the result tuple.
-/

structure Msg where
  role : Option String
  content : Option String
  deriving DecidableEq

inductive PyVal where
  | dict (m : Msg)
  | pystr (s : String)
  | nonIterable (s : String)
  deriving DecidableEq

/-- `msg.get("role")`: returns the field for a dict, raises AttributeError
for any non-dict value (strings and other objects have no `.get`). -/
def pyGetRole : PyVal → Except String (Option String)
  | .dict m => .ok m.role
  | .pystr _ => .error "AttributeError: 'str' object has no attribute 'get'"
  | .nonIterable _ => .error "AttributeError: object has no attribute 'get'"

/-- `leadMatch needle hay` is true when `needle` is an initial segment of `hay`. -/
def leadMatch : List Char → List Char → Bool
  | [], _ => true
  | _ :: _, [] => false
  | a :: as, b :: bs => (a == b) && leadMatch as bs

/-- `occursIn needle hay` is true when `needle` occurs contiguously in `hay`. -/
def occursIn (needle : List Char) : List Char → Bool
  | [] => leadMatch needle []
  | b :: rest => leadMatch needle (b :: rest) || occursIn needle rest

/-- Python's substring test `needle in hay` on strings. -/
def strContains (hay needle : String) : Bool :=
  occursIn needle.data hay.data

/-- The default message returned for an empty input array. -/
def helloMsg : PyVal := .dict ⟨some "user", some "Hello"⟩

/-- The message appended when only system messages are present. -/
def assistMsg : PyVal := .dict ⟨some "user", some "Please provide assistance."⟩

/-- The comprehension `[msg for msg in messages if msg.get("role") != "system"]`:
evaluates `msg.get("role")` left to right, raising at the first non-dict entry,
and keeps the entries whose role is not "system". -/
def nonSystemMessages : List PyVal → Except String (List PyVal)
  | [] => .ok []
  | m :: rest =>
    match pyGetRole m with
    | .error e => .error e
    | .ok r =>
      match nonSystemMessages rest with
      | .error e => .error e
      | .ok rest' => if r ≠ some "system" then .ok (m :: rest') else .ok rest'

/-- One iteration of the repair loop of `fix_bedrock_messages` /
`validate_messages`. For a dict, missing role becomes "user" and missing or
empty (falsy) content becomes "Please help me.". The non-dict branches model
the source faithfully even though they are unreachable from the sanitizer
(the `msg.get("role")` comprehension has already raised by then): after
`messages[i] = {"role": "user", "content": str(msg)}` the loop keeps testing
the stale `msg` binding, so for a string the membership tests are substring
tests — `"role" not in msg` then assigns role "user" (a no-op on the new
dict), and `"content" not in msg` is true for most strings, overwriting the
content with the filler; when `"content"` does occur in the string,
`msg["content"]` raises TypeError. For a non-iterable value, `"role" not in
msg` itself raises TypeError. -/
def repairEntry : PyVal → Except String PyVal
  | .dict m =>
    let m1 : Msg := if m.role = none then ⟨some "user", m.content⟩ else m
    let m2 : Msg :=
      if m1.content = none ∨ m1.content = some "" then ⟨m1.role, some "Please help me."⟩ else m1
    .ok (.dict m2)
  | .pystr s =>
    if strContains s "content" then .error "TypeError: string indices must be integers"
    else .ok (.dict ⟨some "user", some "Please help me."⟩)
  | .nonIterable _ => .error "TypeError: argument is not iterable"

/-- The repair loop applied to each entry in order, raising at the first
entry whose handling raises. -/
def repairAll : List PyVal → Except String (List PyVal)
  | [] => .ok []
  | m :: rest =>
    match repairEntry m with
    | .error e => .error e
    | .ok m' =>
      match repairAll rest with
      | .error e => .error e
      | .ok rest' => .ok (m' :: rest')

/-- `fix_bedrock_messages` from src/bedrock_helpers.py: empty input yields the
single default user message; otherwise the non-system comprehension runs
(possibly raising), a default user message is appended when it found nothing,
and then the repair loop runs over every entry. -/
def fix_bedrock_messages (messages : List PyVal) : Except String (List PyVal) :=
  if messages = [] then .ok [helloMsg]
  else
    match nonSystemMessages messages with
    | .error e => .error e
    | .ok nonSystem =>
      let messages2 := if nonSystem = [] then messages ++ [assistMsg] else messages
      repairAll messages2

/-- `LiteLLMBedrockFixer.validate_messages` from src/fix_litellm_bedrock_error.py:
identical logic to `fix_bedrock_messages` (the prints elided). -/
def validate_messages (messages : List PyVal) : Except String (List PyVal) :=
  if messages = [] then .ok [helloMsg]
  else
    match nonSystemMessages messages with
    | .error e => .error e
    | .ok nonSystem =>
      let messages2 := if nonSystem = [] then messages ++ [assistMsg] else messages
      repairAll messages2

/-- The local `claude_models` list of `safe_claude_call` (src/bedrock_helpers.py). -/
def claude_models : List String :=
  ["bedrock/anthropic.claude-3-sonnet-20240229-v1:0",
   "bedrock/anthropic.claude-3-haiku-20240307-v1:0",
   "bedrock/anthropic.claude-v2:1"]

/-- `self.claude_models` of `LiteLLMBedrockFixer` (src/fix_litellm_bedrock_error.py). -/
def fixer_claude_models : List String :=
  ["bedrock/anthropic.claude-3-sonnet-20240229-v1:0",
   "bedrock/anthropic.claude-3-haiku-20240307-v1:0",
   "bedrock/anthropic.claude-v2:1",
   "bedrock/anthropic.claude-v2"]

/-- `models_to_try[-1]`, Python's last element of a list. The source only
evaluates it on non-empty lists; the `""` default for `[]` is never used. -/
def lastModel : List String → String
  | [] => ""
  | [m] => m
  | _ :: m :: rest => lastModel (m :: rest)

/-- `models_to_try = [model] if model else claude_models` of `safe_claude_call`:
any truthy (non-empty) supplied model string becomes a singleton candidate
list, with no membership check against the recognized models. -/
def modelsToTry (model : Option String) : List String :=
  match model with
  | some m => if m = "" then claude_models else [m]
  | none => claude_models

/-- The model-trial loop of `safe_claude_call` (src/bedrock_helpers.py lines
77-97). Returns the ordered list of models on which `compl` was invoked,
paired with the returned `(success, text)` tuple. On an exception the loop
continues only when the failing name differs from the last candidate
(compared by value, as `model_name != models_to_try[-1]` does); the final
pair after the loop models the fall-through `return False, "알 수 없는 오류"`. -/
def runLoop (compl : String → List PyVal → Except String String) (msgs : List PyVal)
    (last : String) : List String → List String × (Bool × String)
  | [] => ([], (false, "알 수 없는 오류"))
  | m :: rest =>
    match compl m msgs with
    | .ok content => ([m], (true, content))
    | .error e =>
      if m ≠ last then
        let r := runLoop compl msgs last rest
        (m :: r.1, r.2)
      else ([m], (false, "모든 모델 실패: " ++ e))

/-- `safe_claude_call` from src/bedrock_helpers.py: sanitize the messages
(which can raise out of the function — the call is not inside the try),
build the candidate list, then try the candidates in order. -/
def safe_claude_call (compl : String → List PyVal → Except String String)
    (messages : List PyVal) (model : Option String) :
    Except String (List String × (Bool × String)) :=
  match fix_bedrock_messages messages with
  | .error e => .error e
  | .ok msgs =>
    let ms := modelsToTry model
    .ok (runLoop compl msgs (lastModel ms) ms)

/-- The `info` dict returned by `safe_completion`: the success shape
`{"model": ..., "usage": ..., "response_time": ...}` (usage comes from the
opaque external response and is not modelled), the all-models-failed shape
`{"error": ..., "tried_models": ..., "suggestions": ...}`, and the
unreachable post-loop shape `{"error": "All models failed"}`. -/
inductive SCInfo where
  | success (model : String)
  | failure (error : String) (tried_models : List String) (suggestions : List String)
  | fallthrough (error : String)
  deriving DecidableEq

/-- `LiteLLMBedrockFixer.get_error_suggestions`: five independent substring
checks, each extending the suggestion list; note there is no branch for
`ThrottlingException`. -/
def get_error_suggestions (error_msg : String) : List String :=
  (if strContains error_msg "at least one non-system message" then
    ["메시지 배열에 사용자 메시지가 있는지 확인",
     "시스템 메시지만 있다면 user 역할 메시지 추가"] else [])
  ++ (if strContains error_msg "NoCredentialsError" || strContains error_msg "CredentialsNotFound" then
    ["AWS_ACCESS_KEY_ID와 AWS_SECRET_ACCESS_KEY 환경 변수 설정",
     "aws configure 명령으로 AWS CLI 구성",
     ".env 파일에 AWS 자격 증명 추가"] else [])
  ++ (if strContains error_msg "AccessDeniedException" || strContains error_msg "Access denied" then
    ["AWS 콘솔 → IAM에서 bedrock:* 권한 추가",
     "AWS 콘솔 → Bedrock → Model Access에서 모델 권한 요청",
     "올바른 IAM 사용자/역할 사용 확인"] else [])
  ++ (if strContains error_msg "ResourceNotFoundException" then
    ["us-east-1 또는 us-west-2 리전 사용",
     "올바른 모델 ID 사용 확인",
     "해당 리전에서 모델 지원 여부 확인"] else [])
  ++ (if strContains error_msg "ValidationException" then
    ["요청 형식 확인 (messages, model 등)",
     "파라미터 값 범위 확인 (temperature, max_tokens 등)",
     "메시지 내용이 정책에 위반되지 않는지 확인"] else [])

/-- The `if not model: model = self.claude_models[0]` default of
`safe_completion` (src/fix_litellm_bedrock_error.py lines 105-106). -/
def scDefaultedModel (model : Option String) : String :=
  match model with
  | none => fixer_claude_models.headD ""
  | some s => if s = "" then fixer_claude_models.headD "" else s

/-- Candidate-list construction of `safe_completion`
(`models_to_try = [model] if model in self.claude_models else self.claude_models`,
line 117): the list is the singleton `[model]` exactly when the defaulted
model is a member of the recognized list, else the whole recognized list. -/
def scModelsToTry (model : Option String) : List String :=
  if scDefaultedModel model ∈ fixer_claude_models then [scDefaultedModel model]
  else fixer_claude_models

/-- The model-trial loop of `safe_completion` (lines 119-155). `full` is the
whole candidate list (stored into `tried_models` on final failure); the last
candidate is compared by value as in the source. Returns the models actually
invoked paired with the `(success, text, info)` result. -/
def scLoop (compl : String → List PyVal → Except String String) (msgs : List PyVal)
    (full : List String) : List String → List String × (Bool × String × SCInfo)
  | [] => ([], (false, "모든 모델 시도 실패", SCInfo.fallthrough "All models failed"))
  | m :: rest =>
    match compl m msgs with
    | .ok result => ([m], (true, result, SCInfo.success m))
    | .error e =>
      if m ≠ lastModel full then
        let r := scLoop compl msgs full rest
        (m :: r.1, r.2)
      else
        ([m], (false, e, SCInfo.failure e full (get_error_suggestions e)))

/-- `LiteLLMBedrockFixer.safe_completion`: sanitize (which can raise out of
the function), build the candidate list, then try the candidates in order. -/
def safe_completion (compl : String → List PyVal → Except String String)
    (messages : List PyVal) (model : Option String) :
    Except String (List String × (Bool × String × SCInfo)) :=
  match validate_messages messages with
  | .error e => .error e
  | .ok msgs =>
    let ms := scModelsToTry model
    .ok (scLoop compl msgs ms ms)

/-- `RECOMMENDED_MODELS` of the LiteLLM config generated by
`BedrockChecker.generate_litellm_config` (src/aws_bedrock_checker.py). -/
def RECOMMENDED_MODELS : List String :=
  ["bedrock/anthropic.claude-3-sonnet-20240229-v1:0",
   "bedrock/anthropic.claude-3-haiku-20240307-v1:0",
   "bedrock/anthropic.claude-v2:1"]

/-- The try-block body of the generated recursive `safe_claude_call`: the
non-system comprehension (which can raise inside the try), the conditional
append of a default user message (a mutation that persists into the recursive
call), then the completion call at the current index. Returns the message
list as left by the body together with the body's outcome. -/
def genTryBody (compl : Nat → List PyVal → Except String String)
    (messages : List PyVal) (idx : Nat) : List PyVal × Except String String :=
  match nonSystemMessages messages with
  | .error e => (messages, .error e)
  | .ok userMessages =>
    let msgs := if userMessages = [] then messages ++ [helloMsg] else messages
    (msgs, compl idx msgs)

/-- The recursive `safe_claude_call` generated into litellm_config.py
(src/aws_bedrock_checker.py lines 250-271): raise when the index reaches the
end of `RECOMMENDED_MODELS`, otherwise run the try-body and on any exception
recurse with the index incremented (the recursive call sits in the except
block, outside the try, so an exception it raises propagates). The second
component counts the invocations of the function itself. -/
def gen_safe_claude_call (compl : Nat → List PyVal → Except String String)
    (messages : List PyVal) (model_index : Nat) : Except String String × Nat :=
  if _h : RECOMMENDED_MODELS.length ≤ model_index then
    (.error "모든 모델 시도 실패", 1)
  else
    let b := genTryBody compl messages model_index
    match b.2 with
    | .ok content => (.ok content, 1)
    | .error _ =>
      let r := gen_safe_claude_call compl b.1 (model_index + 1)
      (r.1, r.2 + 1)
termination_by RECOMMENDED_MODELS.length - model_index
decreasing_by omega

/-- A dict entry whose role field is not "system" (the Boolean kept by the
non-system comprehension on dict entries). -/
def isNonSystem : PyVal → Bool
  | .dict d => d.role != some "system"
  | _ => true

/-- Modelled from the spec's words for the refinement comparison of C4:
"build the candidate list as `[preferred_model]` if the caller supplied one
and it is recognized, else a fixed priority-ordered default list". -/
def claimCandidateRule (supplied : Option String) (recognized defaults : List String) :
    List String :=
  match supplied with
  | some m => if m ∈ recognized then [m] else defaults
  | none => defaults

/-- Concatenation of a list of lists. -/
def concatAll : List (List String) → List String
  | [] => []
  | l :: rest => l ++ concatAll rest

/-- Modelled from the claim's words for the refinement comparison of C10: the
ordered table of (classification test, remediation list) pairs that
`get_error_suggestions` walks. -/
def suggestionTable : List ((String → Bool) × List String) :=
  [(fun e => strContains e "at least one non-system message",
    ["메시지 배열에 사용자 메시지가 있는지 확인",
     "시스템 메시지만 있다면 user 역할 메시지 추가"]),
   (fun e => strContains e "NoCredentialsError" || strContains e "CredentialsNotFound",
    ["AWS_ACCESS_KEY_ID와 AWS_SECRET_ACCESS_KEY 환경 변수 설정",
     "aws configure 명령으로 AWS CLI 구성",
     ".env 파일에 AWS 자격 증명 추가"]),
   (fun e => strContains e "AccessDeniedException" || strContains e "Access denied",
    ["AWS 콘솔 → IAM에서 bedrock:* 권한 추가",
     "AWS 콘솔 → Bedrock → Model Access에서 모델 권한 요청",
     "올바른 IAM 사용자/역할 사용 확인"]),
   (fun e => strContains e "ResourceNotFoundException",
    ["us-east-1 또는 us-west-2 리전 사용",
     "올바른 모델 ID 사용 확인",
     "해당 리전에서 모델 지원 여부 확인"]),
   (fun e => strContains e "ValidationException",
    ["요청 형식 확인 (messages, model 등)",
     "파라미터 값 범위 확인 (temperature, max_tokens 등)",
     "메시지 내용이 정책에 위반되지 않는지 확인"])]

/-- One of the substrings that `get_error_suggestions` actually reacts to is
present in the error text (the throttling substring is not among them). -/
def knownSuggestionSubstringPresent (e : String) : Bool :=
  strContains e "at least one non-system message"
  || strContains e "NoCredentialsError" || strContains e "CredentialsNotFound"
  || strContains e "AccessDeniedException" || strContains e "Access denied"
  || strContains e "ResourceNotFoundException"
  || strContains e "ValidationException"

/-- Modelled from the amended C4: the candidate list `safe_claude_call`
actually builds — the singleton for any truthy supplied model, recognized or
not, else the default list. -/
def amendedRuleCall (supplied : Option String) : List String :=
  match supplied with
  | some m => if m = "" then claude_models else [m]
  | none => claude_models

/-- Modelled from the amended C4: the candidate list `safe_completion`
actually builds — the supplied model defaults to the first recommended model
when falsy, and the list is the singleton exactly when that model is
recognized (so with no model supplied only the first default is tried). -/
def amendedRuleCompletion (supplied : Option String) : List String :=
  let m := match supplied with
    | none => fixer_claude_models.headD ""
    | some s => if s = "" then fixer_claude_models.headD "" else s
  if m ∈ fixer_claude_models then [m] else fixer_claude_models

/-- A valid user message used in concrete instantiations. -/
def uHi : PyVal := .dict ⟨some "user", some "Hi"⟩

theorem validate_messages_eq_fix : validate_messages = fix_bedrock_messages := rfl

theorem nonSystemMessages_of_dicts :
    ∀ l : List PyVal, (∀ m ∈ l, ∃ d, m = PyVal.dict d) →
      nonSystemMessages l = .ok (l.filter isNonSystem) := by
  intro l
  induction l with
  | nil => intro _; rfl
  | cons m rest ih =>
    intro h
    obtain ⟨d, rfl⟩ := h m (List.mem_cons_self _ _)
    have ht := ih (fun x hx => h x (List.mem_cons_of_mem _ hx))
    by_cases hd : d.role = some "system"
    · have hb : (d.role != some "system") = false := by simp [hd]
      simp [nonSystemMessages, pyGetRole, ht, List.filter, isNonSystem, hd, hb]
    · have hb : (d.role != some "system") = true := by simp [hd]
      simp [nonSystemMessages, pyGetRole, ht, List.filter, isNonSystem, hd, hb]

theorem repairEntry_fixed (r c : String) (hc : c ≠ "") :
    repairEntry (.dict ⟨some r, some c⟩) = .ok (.dict ⟨some r, some c⟩) := by
  simp [repairEntry, hc]

theorem repairAll_id :
    ∀ l : List PyVal, (∀ m ∈ l, repairEntry m = .ok m) → repairAll l = .ok l := by
  intro l
  induction l with
  | nil => intro _; rfl
  | cons m rest ih =>
    intro h
    have hm := h m (List.mem_cons_self _ _)
    have ht := ih (fun x hx => h x (List.mem_cons_of_mem _ hx))
    simp [repairAll, hm, ht]

theorem lastModel_concat (l : List String) (x : String) : lastModel (l ++ [x]) = x := by
  induction l with
  | nil => rfl
  | cons a l ih =>
    cases l with
    | nil => rfl
    | cons b t => exact ih

theorem dropLast_concat_lastModel :
    ∀ l : List String, l ≠ [] → l.dropLast ++ [lastModel l] = l := by
  intro l
  induction l with
  | nil => intro h; exact absurd rfl h
  | cons a l ih =>
    intro _
    cases l with
    | nil => rfl
    | cons b t => exact congrArg (a :: ·) (ih (by simp))

theorem runLoop_ok_last (compl : String → List PyVal → Except String String)
    (msgs : List PyVal) (resp : String) :
    ∀ (ms' : List String) (last : String),
      (∀ m ∈ ms', ∃ e, compl m msgs = .error e) →
      compl last msgs = .ok resp →
      runLoop compl msgs last (ms' ++ [last]) = (ms' ++ [last], (true, resp)) := by
  intro ms'
  induction ms' with
  | nil => intro last _ hok; simp [runLoop, hok]
  | cons a t ih =>
    intro last hfail hok
    obtain ⟨e, he⟩ := hfail a (by simp)
    have hne : a ≠ last := by
      intro heq; rw [heq, hok] at he; exact Except.noConfusion he
    have ht := ih last (fun m hm => hfail m (by simp [hm])) hok
    simp [runLoop, he, hne, ht]

theorem runLoop_all_fail (compl : String → List PyVal → Except String String)
    (msgs : List PyVal) (efinal : String) :
    ∀ (ms' : List String) (last : String),
      (∀ m ∈ ms', ∃ e, compl m msgs = .error e) →
      (∀ m ∈ ms', m ≠ last) →
      compl last msgs = .error efinal →
      runLoop compl msgs last (ms' ++ [last]) =
        (ms' ++ [last], (false, "모든 모델 실패: " ++ efinal)) := by
  intro ms'
  induction ms' with
  | nil => intro last _ _ hlast; simp [runLoop, hlast]
  | cons a t ih =>
    intro last hfail hne hlast
    obtain ⟨e, he⟩ := hfail a (by simp)
    have ha : a ≠ last := hne a (by simp)
    have ht := ih last (fun m hm => hfail m (by simp [hm])) (fun m hm => hne m (by simp [hm])) hlast
    simp [runLoop, he, ha, ht]

theorem scLoop_ok_last (compl : String → List PyVal → Except String String)
    (msgs : List PyVal) (resp : String) (full : List String) :
    ∀ (ms' : List String) (last : String),
      (∀ m ∈ ms', ∃ e, compl m msgs = .error e) →
      lastModel full = last →
      compl last msgs = .ok resp →
      scLoop compl msgs full (ms' ++ [last]) =
        (ms' ++ [last], (true, resp, SCInfo.success last)) := by
  intro ms'
  induction ms' with
  | nil => intro last _ _ hok; simp [scLoop, hok]
  | cons a t ih =>
    intro last hfail hfull hok
    obtain ⟨e, he⟩ := hfail a (by simp)
    have hne : a ≠ lastModel full := by
      rw [hfull]; intro heq; rw [heq, hok] at he; exact Except.noConfusion he
    have ht := ih last (fun m hm => hfail m (by simp [hm])) hfull hok
    simp [scLoop, he, hne, ht]

theorem scLoop_all_fail (compl : String → List PyVal → Except String String)
    (msgs : List PyVal) (efinal : String) (full : List String) :
    ∀ (ms' : List String) (last : String),
      (∀ m ∈ ms', ∃ e, compl m msgs = .error e) →
      (∀ m ∈ ms', m ≠ last) →
      lastModel full = last →
      compl last msgs = .error efinal →
      scLoop compl msgs full (ms' ++ [last]) =
        (ms' ++ [last],
          (false, efinal, SCInfo.failure efinal full (get_error_suggestions efinal))) := by
  intro ms'
  induction ms' with
  | nil =>
    intro last _ _ hfull hlast
    simp [scLoop, hlast, hfull]
  | cons a t ih =>
    intro last hfail hne hfull hlast
    obtain ⟨e, he⟩ := hfail a (by simp)
    have ha : a ≠ lastModel full := by rw [hfull]; exact hne a (by simp)
    have ht := ih last (fun m hm => hfail m (by simp [hm])) (fun m hm => hne m (by simp [hm])) hfull hlast
    simp [scLoop, he, ha, ht]

theorem modelsToTry_ne_nil (mo : Option String) : modelsToTry mo ≠ [] := by
  match mo with
  | none => simp [modelsToTry, claude_models]
  | some m =>
    by_cases hm : m = "" <;> simp [modelsToTry, hm, claude_models]

theorem scModelsToTry_ne_nil (mo : Option String) : scModelsToTry mo ≠ [] := by
  by_cases h : scDefaultedModel mo ∈ fixer_claude_models
  · simp [scModelsToTry, h]
  · rw [scModelsToTry, if_neg h]
    simp [fixer_claude_models]

theorem modelsToTry_dropLast_ne_last (mo : Option String) :
    ∀ m ∈ (modelsToTry mo).dropLast, m ≠ lastModel (modelsToTry mo) := by
  intro m hm
  match mo with
  | none =>
    simp [modelsToTry, claude_models, lastModel] at hm ⊢
    rcases hm with rfl | rfl <;> decide
  | some s =>
    by_cases hs : s = ""
    · simp [modelsToTry, hs, claude_models, lastModel] at hm ⊢
      rcases hm with rfl | rfl <;> decide
    · simp [modelsToTry, hs] at hm

theorem scModelsToTry_dropLast_ne_last (mo : Option String) :
    ∀ m ∈ (scModelsToTry mo).dropLast, m ≠ lastModel (scModelsToTry mo) := by
  intro m hm
  by_cases h : scDefaultedModel mo ∈ fixer_claude_models
  · simp [scModelsToTry, h] at hm
  · rw [scModelsToTry, if_neg h] at hm ⊢
    simp [fixer_claude_models, lastModel] at hm ⊢
    rcases hm with rfl | rfl | rfl <;> decide

theorem get_error_suggestions_ne_nil_iff (e : String) :
    get_error_suggestions e ≠ [] ↔ knownSuggestionSubstringPresent e = true := by
  unfold get_error_suggestions knownSuggestionSubstringPresent
  cases h1 : strContains e "at least one non-system message" <;>
  cases h2 : strContains e "NoCredentialsError" <;>
  cases h3 : strContains e "CredentialsNotFound" <;>
  cases h4 : strContains e "AccessDeniedException" <;>
  cases h5 : strContains e "Access denied" <;>
  cases h6 : strContains e "ResourceNotFoundException" <;>
  cases h7 : strContains e "ValidationException" <;>
  simp [h1, h2, h3, h4, h5, h6, h7]

theorem genTryBody_snd_error (compl : Nat → List PyVal → Except String String)
    (messages : List PyVal) (idx : Nat)
    (hfail : ∀ i msgs, ∃ e, compl i msgs = .error e) :
    ∃ e, (genTryBody compl messages idx).2 = .error e := by
  unfold genTryBody
  cases hns : nonSystemMessages messages with
  | error e => exact ⟨e, rfl⟩
  | ok ns =>
    obtain ⟨e, he⟩ := hfail idx (if ns = [] then messages ++ [helloMsg] else messages)
    exact ⟨e, by simp [he]⟩

theorem gen_count_le (k : Nat) :
    ∀ (idx : Nat), RECOMMENDED_MODELS.length - idx ≤ k →
      ∀ (compl : Nat → List PyVal → Except String String) (messages : List PyVal),
        (gen_safe_claude_call compl messages idx).2 ≤ k + 1 := by
  induction k with
  | zero =>
    intro idx hk compl messages
    have hge : RECOMMENDED_MODELS.length ≤ idx := by omega
    rw [gen_safe_claude_call]
    simp [hge]
  | succ k ih =>
    intro idx hk compl messages
    by_cases hge : RECOMMENDED_MODELS.length ≤ idx
    · rw [gen_safe_claude_call]
      simp [hge]
    · rw [gen_safe_claude_call]
      simp only [hge, dite_false]
      cases hb : (genTryBody compl messages idx).2 with
      | ok content => simp [hb]
      | error e =>
        simp only [hb]
        have := ih (idx + 1) (by omega) compl (genTryBody compl messages idx).1
        omega

theorem gen_all_fail (compl : Nat → List PyVal → Except String String)
    (hfail : ∀ i msgs, ∃ e, compl i msgs = .error e) :
    ∀ (k idx : Nat), RECOMMENDED_MODELS.length - idx = k →
      idx ≤ RECOMMENDED_MODELS.length →
      ∀ messages : List PyVal,
        gen_safe_claude_call compl messages idx = (.error "모든 모델 시도 실패", k + 1) := by
  intro k
  induction k with
  | zero =>
    intro idx hk hle messages
    have hge : RECOMMENDED_MODELS.length ≤ idx := by omega
    rw [gen_safe_claude_call]
    simp [hge]
  | succ k ih =>
    intro idx hk hle messages
    have hlt : ¬ RECOMMENDED_MODELS.length ≤ idx := by omega
    obtain ⟨e, he⟩ := genTryBody_snd_error compl messages idx hfail
    rw [gen_safe_claude_call]
    simp only [hlt, dite_false, he]
    rw [ih (idx + 1) (by omega) (by omega) (genTryBody compl messages idx).1]

/-- C8: for the empty input sequence both sanitizer variants return exactly
one message, whose role ("user") is not "system" and whose content ("Hello")
is a non-empty string. -/
theorem c8_empty_input_yields_single_user_message :
    fix_bedrock_messages [] = .ok [PyVal.dict ⟨some "user", some "Hello"⟩]
    ∧ validate_messages [] = .ok [PyVal.dict ⟨some "user", some "Hello"⟩]
    ∧ "user" ≠ "system" ∧ "Hello" ≠ "" :=
  ⟨rfl, rfl, by decide, by decide⟩

/-- C1: the claim that the sanitizer never raises and coerces every
non-record entry into a user message carrying its string form fails: the
`msg.get("role")` comprehension raises AttributeError on any non-record
entry before the repair loop can run, in both sanitizer variants. -/
theorem c1_sanitizer_raises_on_non_record_entry :
    fix_bedrock_messages [PyVal.nonIterable "42"] =
      .error "AttributeError: object has no attribute 'get'"
    ∧ validate_messages [PyVal.pystr "oops"] =
      .error "AttributeError: 'str' object has no attribute 'get'" :=
  ⟨rfl, rfl⟩

/-- C2 counterexample: a system-only sequence of record messages whose single
message has no content is not returned intact — the repair loop rewrites its
content — so the output is not the original messages followed by one appended
user message. -/
theorem c2_counterexample_system_message_without_content :
    fix_bedrock_messages [PyVal.dict ⟨some "system", none⟩] =
      .ok [PyVal.dict ⟨some "system", some "Please help me."⟩, assistMsg]
    ∧ PyVal.dict ⟨some "system", some "Please help me."⟩ ≠ PyVal.dict ⟨some "system", none⟩ :=
  ⟨rfl, by decide⟩

/-- C2 (amended): for every non-empty sequence of record messages, each with
role "system" and defined non-empty content, both sanitizers return the
original messages unchanged, in order, followed by exactly one appended user
message with content "Please provide assistance.". -/
theorem c2_system_only_appends_one_user_message
    (l : List PyVal) (hne : l ≠ [])
    (hsys : ∀ m ∈ l, ∃ c, m = PyVal.dict ⟨some "system", some c⟩ ∧ c ≠ "") :
    fix_bedrock_messages l = .ok (l ++ [assistMsg])
    ∧ validate_messages l = .ok (l ++ [assistMsg]) := by
  have hdicts : ∀ m ∈ l, ∃ d, m = PyVal.dict d := by
    intro m hm
    obtain ⟨c, rfl, _⟩ := hsys m hm
    exact ⟨_, rfl⟩
  have hns : nonSystemMessages l = .ok (l.filter isNonSystem) :=
    nonSystemMessages_of_dicts l hdicts
  have hfilter : l.filter isNonSystem = [] := by
    rw [List.filter_eq_nil_iff]
    intro m hm
    obtain ⟨c, rfl, _⟩ := hsys m hm
    simp [isNonSystem]
  have hrepair : repairAll (l ++ [assistMsg]) = .ok (l ++ [assistMsg]) := by
    apply repairAll_id
    intro m hm
    rcases List.mem_append.mp hm with h | h
    · obtain ⟨c, rfl, hc⟩ := hsys m h
      exact repairEntry_fixed _ _ hc
    · rcases List.mem_singleton.mp h with rfl
      rfl
  have main : fix_bedrock_messages l = .ok (l ++ [assistMsg]) := by
    unfold fix_bedrock_messages
    rw [if_neg hne, hns]
    simp [hfilter, hrepair]
  exact ⟨main, (congrFun validate_messages_eq_fix l).trans main⟩

/-- C2 witness: the spec's concrete example instantiates the amended claim. -/
theorem c2_witness :
    [PyVal.dict ⟨some "system", some "You are helpful."⟩] ≠ ([] : List PyVal)
    ∧ fix_bedrock_messages [PyVal.dict ⟨some "system", some "You are helpful."⟩] =
        .ok [PyVal.dict ⟨some "system", some "You are helpful."⟩, assistMsg] := by
  refine ⟨by simp, ?_⟩
  have h := c2_system_only_appends_one_user_message
    [PyVal.dict ⟨some "system", some "You are helpful."⟩]
    (by simp)
    (by intro m hm
        rw [List.mem_singleton] at hm
        subst hm
        exact ⟨"You are helpful.", rfl, by decide⟩)
  exact h.1

/-- C7: a sequence of record messages that already contains a non-system
message, in which every message has a defined role and non-empty content, is
returned unmodified by both sanitizer variants, and applying the sanitizer
twice yields the same result as applying it once. -/
theorem c7_valid_input_unmodified_and_idempotent
    (l : List PyVal)
    (hvalid : ∀ m ∈ l, ∃ r c, m = PyVal.dict ⟨some r, some c⟩ ∧ c ≠ "")
    (hnonsys : ∃ d : Msg, PyVal.dict d ∈ l ∧ d.role ≠ some "system") :
    fix_bedrock_messages l = .ok l
    ∧ validate_messages l = .ok l
    ∧ Except.bind (fix_bedrock_messages l) fix_bedrock_messages = fix_bedrock_messages l := by
  obtain ⟨d, hd, hdrole⟩ := hnonsys
  have hne : l ≠ [] := by
    intro h
    subst h
    exact absurd hd (List.not_mem_nil _)
  have hdicts : ∀ m ∈ l, ∃ dd, m = PyVal.dict dd := by
    intro m hm
    obtain ⟨r, c, rfl, _⟩ := hvalid m hm
    exact ⟨_, rfl⟩
  have hns : nonSystemMessages l = .ok (l.filter isNonSystem) :=
    nonSystemMessages_of_dicts l hdicts
  have hfiltne : l.filter isNonSystem ≠ [] := by
    intro hempty
    rw [List.filter_eq_nil_iff] at hempty
    have hpass : isNonSystem (PyVal.dict d) = true := by simp [isNonSystem, hdrole]
    exact hempty _ hd hpass
  have hrepair : repairAll l = .ok l := by
    apply repairAll_id
    intro m hm
    obtain ⟨r, c, rfl, hc⟩ := hvalid m hm
    exact repairEntry_fixed r c hc
  have main : fix_bedrock_messages l = .ok l := by
    unfold fix_bedrock_messages
    rw [if_neg hne, hns]
    simp [hfiltne, hrepair]
  refine ⟨main, (congrFun validate_messages_eq_fix l).trans main, ?_⟩
  rw [main]
  exact main

/-- C7 witness: a single valid user message is left untouched. -/
theorem c7_witness :
    fix_bedrock_messages [uHi] = .ok [uHi]
    ∧ Except.bind (fix_bedrock_messages [uHi]) fix_bedrock_messages = fix_bedrock_messages [uHi] := by
  have h := c7_valid_input_unmodified_and_idempotent [uHi]
    (by intro m hm
        rw [List.mem_singleton] at hm
        subst hm
        exact ⟨"user", "Hi", rfl, by decide⟩)
    ⟨⟨some "user", some "Hi"⟩, by simp [uHi], by decide⟩
  exact ⟨h.1, h.2.2⟩

/-- C3: for the candidate list a dispatcher actually builds, if the
completion call raises for every candidate before the last and succeeds for
the last, the dispatcher returns success with that candidate's response text
and invokes the completion call exactly once per candidate (the returned
trace lists every invocation, in order, and equals the whole candidate
list). This holds for both `safe_claude_call` and `safe_completion`. -/
theorem c3_dispatcher_success_on_last_candidate
    (compl compl2 : String → List PyVal → Except String String)
    (messages msgs : List PyVal) (mo : Option String) (resp resp2 : String)
    (hfix : fix_bedrock_messages messages = .ok msgs)
    (h1 : ∀ m ∈ (modelsToTry mo).dropLast, ∃ e, compl m msgs = .error e)
    (h2 : compl (lastModel (modelsToTry mo)) msgs = .ok resp)
    (h3 : ∀ m ∈ (scModelsToTry mo).dropLast, ∃ e, compl2 m msgs = .error e)
    (h4 : compl2 (lastModel (scModelsToTry mo)) msgs = .ok resp2) :
    safe_claude_call compl messages mo = .ok (modelsToTry mo, (true, resp))
    ∧ safe_completion compl2 messages mo =
        .ok (scModelsToTry mo,
          (true, resp2, SCInfo.success (lastModel (scModelsToTry mo)))) := by
  constructor
  · have hrun := runLoop_ok_last compl msgs resp (modelsToTry mo).dropLast
      (lastModel (modelsToTry mo)) h1 h2
    rw [dropLast_concat_lastModel _ (modelsToTry_ne_nil mo)] at hrun
    simp only [safe_claude_call, hfix]
    rw [hrun]
  · have hrun := scLoop_ok_last compl2 msgs resp2 (scModelsToTry mo) (scModelsToTry mo).dropLast
      (lastModel (scModelsToTry mo)) h3 rfl h4
    rw [dropLast_concat_lastModel _ (scModelsToTry_ne_nil mo)] at hrun
    simp only [safe_completion, validate_messages_eq_fix, hfix]
    rw [hrun]

/-- C3 witness: with the default lists, two failures then a success for
`safe_claude_call`, and an immediate success for `safe_completion`'s
singleton candidate list. -/
theorem c3_witness :
    safe_claude_call
        (fun m _ => if m = "bedrock/anthropic.claude-v2:1" then .ok "OK" else .error "no")
        [uHi] none = .ok (modelsToTry none, (true, "OK"))
    ∧ safe_completion
        (fun m _ => if m = "bedrock/anthropic.claude-3-sonnet-20240229-v1:0"
          then .ok "OK2" else .error "no")
        [uHi] none =
        .ok (scModelsToTry none, (true, "OK2", SCInfo.success (lastModel (scModelsToTry none)))) := by
  refine c3_dispatcher_success_on_last_candidate _ _ [uHi] [uHi] none "OK" "OK2" rfl ?_ ?_ ?_ ?_
  · intro m hm
    have hdl : (modelsToTry none).dropLast =
        ["bedrock/anthropic.claude-3-sonnet-20240229-v1:0",
         "bedrock/anthropic.claude-3-haiku-20240307-v1:0"] := by decide
    rw [hdl] at hm
    rcases List.mem_cons.mp hm with rfl | hm
    · exact ⟨"no", rfl⟩
    · rcases List.mem_singleton.mp hm with rfl
      exact ⟨"no", rfl⟩
  · rfl
  · intro m hm
    have hdl : (scModelsToTry none).dropLast = ([] : List String) := by decide
    rw [hdl] at hm
    exact absurd hm (List.not_mem_nil m)
  · rfl

/-- C4 counterexample: `safe_claude_call` given the unrecognized model "foo"
builds the singleton ["foo"], not the default list the claim requires, and
invokes the completion call on "foo" alone; `safe_completion` given no model
builds a singleton (the first default), not the full default list the claim
requires, and invokes the completion call on that one model alone. -/
theorem c4_counterexample_candidate_list_rule :
    modelsToTry (some "foo") = ["foo"]
    ∧ claimCandidateRule (some "foo") claude_models claude_models = claude_models
    ∧ modelsToTry (some "foo") ≠ claimCandidateRule (some "foo") claude_models claude_models
    ∧ scModelsToTry none = ["bedrock/anthropic.claude-3-sonnet-20240229-v1:0"]
    ∧ claimCandidateRule none fixer_claude_models fixer_claude_models = fixer_claude_models
    ∧ scModelsToTry none ≠ claimCandidateRule none fixer_claude_models fixer_claude_models
    ∧ safe_claude_call (fun _ _ => .error "boom") [uHi] (some "foo") =
        .ok (["foo"], (false, "모든 모델 실패: boom"))
    ∧ safe_completion (fun _ _ => .error "boom") [uHi] none =
        .ok (["bedrock/anthropic.claude-3-sonnet-20240229-v1:0"],
          (false, "boom",
            SCInfo.failure "boom" ["bedrock/anthropic.claude-3-sonnet-20240229-v1:0"]
              (get_error_suggestions "boom"))) :=
  ⟨rfl, rfl, by decide, rfl, rfl, by decide, rfl, rfl⟩

/-- C4 (amended): the candidate list `safe_claude_call` builds is the
singleton [model] for any truthy supplied model, recognized or not, and the
default list otherwise; the candidate list `safe_completion` builds is the
singleton of the supplied-or-defaulted model exactly when that model is
recognized — so with no model supplied it tries only the first default model
— and the full default list otherwise. Stated behaviorally: under an oracle
that fails on every candidate, the models actually invoked are exactly the
amended rule's list. -/
theorem c4_amended_candidate_lists
    (mo : Option String) (compl compl2 : String → List PyVal → Except String String)
    (messages msgs : List PyVal)
    (hfix : fix_bedrock_messages messages = .ok msgs)
    (hfail : ∀ m msgsx, ∃ e, compl m msgsx = .error e)
    (hfail2 : ∀ m msgsx, ∃ e, compl2 m msgsx = .error e) :
    (∃ r, safe_claude_call compl messages mo = .ok (amendedRuleCall mo, r))
    ∧ (∃ r2, safe_completion compl2 messages mo = .ok (amendedRuleCompletion mo, r2)) := by
  have hcall_eq : amendedRuleCall mo = modelsToTry mo := by cases mo <;> rfl
  have hcomp_eq : amendedRuleCompletion mo = scModelsToTry mo := by cases mo <;> rfl
  constructor
  · obtain ⟨efinal, hef⟩ := hfail (lastModel (modelsToTry mo)) msgs
    have hrun := runLoop_all_fail compl msgs efinal (modelsToTry mo).dropLast
      (lastModel (modelsToTry mo)) (fun m _ => hfail m msgs)
      (modelsToTry_dropLast_ne_last mo) hef
    rw [dropLast_concat_lastModel _ (modelsToTry_ne_nil mo)] at hrun
    refine ⟨(false, "모든 모델 실패: " ++ efinal), ?_⟩
    simp only [safe_claude_call, hfix]
    rw [hrun, hcall_eq]
  · obtain ⟨efinal, hef⟩ := hfail2 (lastModel (scModelsToTry mo)) msgs
    have hrun := scLoop_all_fail compl2 msgs efinal (scModelsToTry mo) (scModelsToTry mo).dropLast
      (lastModel (scModelsToTry mo)) (fun m _ => hfail2 m msgs)
      (scModelsToTry_dropLast_ne_last mo) rfl hef
    rw [dropLast_concat_lastModel _ (scModelsToTry_ne_nil mo)] at hrun
    refine ⟨(false, efinal,
      SCInfo.failure efinal (scModelsToTry mo) (get_error_suggestions efinal)), ?_⟩
    simp only [safe_completion, validate_messages_eq_fix, hfix]
    rw [hrun, hcomp_eq]

/-- C4 witness: instantiating the amended claim at the unrecognized model
"foo" with an always-failing oracle. -/
theorem c4_witness :
    (∃ r, safe_claude_call (fun _ _ => .error "boom") [uHi] (some "foo") =
      .ok (amendedRuleCall (some "foo"), r))
    ∧ (∃ r2, safe_completion (fun _ _ => .error "boom") [uHi] (some "foo") =
      .ok (amendedRuleCompletion (some "foo"), r2)) :=
  c4_amended_candidate_lists (some "foo") _ _ [uHi] [uHi] rfl
    (fun _ _ => ⟨"boom", rfl⟩) (fun _ _ => ⟨"boom", rfl⟩)

/-- C5 counterexample: when every candidate fails with a throttling error —
one of the claim's "known classification substrings" — `safe_completion`
returns failure with an empty suggestions list, because
`get_error_suggestions` has no throttling branch. -/
theorem c5_counterexample_throttling_has_no_suggestions :
    safe_completion (fun _ _ => .error "ThrottlingException: Rate exceeded") [uHi] none =
      .ok (["bedrock/anthropic.claude-3-sonnet-20240229-v1:0"],
        (false, "ThrottlingException: Rate exceeded",
          SCInfo.failure "ThrottlingException: Rate exceeded"
            ["bedrock/anthropic.claude-3-sonnet-20240229-v1:0"] []))
    ∧ strContains "ThrottlingException: Rate exceeded" "ThrottlingException" = true :=
  ⟨rfl, rfl⟩

/-- C5 (amended): when every candidate of `safe_completion` fails, the result
is failure carrying the final error and a suggestions list that is non-empty
exactly when the final error's text contains one of the five substring groups
`get_error_suggestions` reacts to (missing-non-system-message,
no-credentials, access-denied, resource-not-found, validation) — throttling
is not among them. -/
theorem c5_all_fail_failure_with_classified_suggestions
    (compl : String → List PyVal → Except String String)
    (messages msgs : List PyVal) (mo : Option String) (efinal : String)
    (hval : validate_messages messages = .ok msgs)
    (hfail : ∀ m ∈ (scModelsToTry mo).dropLast, ∃ e, compl m msgs = .error e)
    (hlast : compl (lastModel (scModelsToTry mo)) msgs = .error efinal) :
    safe_completion compl messages mo =
      .ok (scModelsToTry mo,
        (false, efinal, SCInfo.failure efinal (scModelsToTry mo) (get_error_suggestions efinal)))
    ∧ (get_error_suggestions efinal ≠ [] ↔ knownSuggestionSubstringPresent efinal = true) := by
  constructor
  · have hrun := scLoop_all_fail compl msgs efinal (scModelsToTry mo) (scModelsToTry mo).dropLast
      (lastModel (scModelsToTry mo)) hfail (scModelsToTry_dropLast_ne_last mo) rfl hlast
    rw [dropLast_concat_lastModel _ (scModelsToTry_ne_nil mo)] at hrun
    simp only [safe_completion, hval]
    rw [hrun]
  · exact get_error_suggestions_ne_nil_iff efinal

/-- C5 witness: an access-denied failure on the (singleton) candidate list
yields failure with a non-empty suggestions list. -/
theorem c5_witness :
    safe_completion (fun _ _ => .error "AccessDeniedException: denied") [uHi] none =
      .ok (scModelsToTry none,
        (false, "AccessDeniedException: denied",
          SCInfo.failure "AccessDeniedException: denied" (scModelsToTry none)
            (get_error_suggestions "AccessDeniedException: denied")))
    ∧ (get_error_suggestions "AccessDeniedException: denied" ≠ [] ↔
        knownSuggestionSubstringPresent "AccessDeniedException: denied" = true) := by
  refine c5_all_fail_failure_with_classified_suggestions _ [uHi] [uHi] none
    "AccessDeniedException: denied" rfl ?_ rfl
  intro m hm
  have hdl : (scModelsToTry none).dropLast = ([] : List String) := by decide
  rw [hdl] at hm
  exact absurd hm (List.not_mem_nil m)

/-- C6: the claim that the dispatchers never propagate an exception for any
input fails: a message list containing a bare string makes the sanitizer
raise AttributeError, and both `safe_claude_call` and `safe_completion` call
it outside their try blocks, so the exception propagates to the caller
whatever the completion oracle would have done. -/
theorem c6_dispatchers_propagate_sanitizer_exception :
    ∀ compl compl2 : String → List PyVal → Except String String,
      safe_claude_call compl [PyVal.pystr "hi"] none =
        .error "AttributeError: 'str' object has no attribute 'get'"
      ∧ safe_completion compl2 [PyVal.pystr "hi"] none =
        .error "AttributeError: 'str' object has no attribute 'get'" :=
  fun _ _ => ⟨rfl, rfl⟩

/-- C9: the recursive `safe_claude_call` of the generated LiteLLM config
terminates for every oracle behavior: when no call ever succeeds it performs
exactly `RECOMMENDED_MODELS.length + 1` invocations (indices 0, 1, 2, then
the guard) and raises instead of recursing further, and for every behavior
the invocation count never exceeds `RECOMMENDED_MODELS.length + 1`. -/
theorem c9_generated_recursive_fallback_bounded
    (compl : Nat → List PyVal → Except String String) (messages : List PyVal)
    (hfail : ∀ i msgs, ∃ e, compl i msgs = .error e) :
    gen_safe_claude_call compl messages 0 =
      (.error "모든 모델 시도 실패", RECOMMENDED_MODELS.length + 1)
    ∧ ∀ (compl' : Nat → List PyVal → Except String String) (messages' : List PyVal),
        (gen_safe_claude_call compl' messages' 0).2 ≤ RECOMMENDED_MODELS.length + 1 := by
  constructor
  · exact gen_all_fail compl hfail RECOMMENDED_MODELS.length 0 (by omega) (by omega) messages
  · intro compl' messages'
    exact gen_count_le RECOMMENDED_MODELS.length 0 (by omega) compl' messages'

/-- C9 witness: a never-succeeding oracle stops after exactly four
invocations with the raised failure. -/
theorem c9_witness :
    gen_safe_claude_call (fun _ _ => .error "err") [] 0 =
      (.error "모든 모델 시도 실패", RECOMMENDED_MODELS.length + 1) :=
  (c9_generated_recursive_fallback_bounded _ [] (fun _ _ => ⟨"err", rfl⟩)).1

/-- C10: `get_error_suggestions` walks its classification branches
non-exclusively in a fixed order; for every error text the returned list is
the concatenation, in table order and without deduplication, of the
remediation lists of every matching category. -/
theorem c10_suggestions_are_ordered_concatenation (e : String) :
    get_error_suggestions e =
      concatAll ((suggestionTable.filter (fun p => p.1 e)).map Prod.snd) := by
  unfold get_error_suggestions suggestionTable
  cases h1 : strContains e "at least one non-system message" <;>
  cases h2 : strContains e "NoCredentialsError" <;>
  cases h3 : strContains e "CredentialsNotFound" <;>
  cases h4 : strContains e "AccessDeniedException" <;>
  cases h5 : strContains e "Access denied" <;>
  cases h6 : strContains e "ResourceNotFoundException" <;>
  cases h7 : strContains e "ValidationException" <;>
  simp [h1, h2, h3, h4, h5, h6, h7, List.filter, concatAll]
